import Mathlib

/-!
Shallow embedding of `buckshot_roulette_cli.py` ("Tube Roulette", a console
clone of BUCKSHOT ROULETTE's mechanics), together with theorems settling
the specification claims.

Modelling conventions:
* Python's `random` module is modelled by an explicit stream of natural
  numbers (`Rng`); `random.randint`, `random.shuffle`, `random.sample` and
  `random.choice` are deterministic functions of that stream that satisfy
  the contracts the library guarantees (results in range, permutations,
  samples without replacement).
* Exceptions (`RuntimeError`, `IndexError`) are modelled with
  `Except String`.
* Human input (`input()`-driven choices) is modelled by a stream of
  `Option ItemId` answers; the re-prompting loop of `prompt_choose_item`
  is collapsed into its final outcome, which is always either a decline
  (`none`) or a valid inventory entry.
* The narration transcript (`Game.log` / `print`) is presentation-layer
  state and is omitted: spec §1 places it outside the core.
-/

-- ---------------------------------------------------------------------------
-- Random source model (python `random`)
-- ---------------------------------------------------------------------------

/-- A deterministic stream of naturals standing for python's seeded PRNG. -/
abbrev Rng := List Nat

/-- Draw one raw natural from the stream (0 if exhausted). -/
def Rng.next : Rng → Nat × Rng
  | [] => (0, [])
  | n :: r => (n, r)

/-- `random.randint(lo, hi)`: uniform integer in `[lo, hi]`, modelled by
reducing the next raw draw into the requested range. -/
def randint (lo hi : Nat) (r : Rng) : Nat × Rng :=
  (lo + (Rng.next r).1 % (hi + 1 - lo), (Rng.next r).2)

theorem randint_ge (lo hi : Nat) (r : Rng) : lo ≤ (randint lo hi r).1 := by
  simp [randint]

theorem randint_le (lo hi : Nat) (r : Rng) (h : lo ≤ hi) :
    (randint lo hi r).1 ≤ hi := by
  unfold randint
  have hpos : 0 < hi + 1 - lo := by omega
  have := Nat.mod_lt (Rng.next r).1 hpos
  omega

-- ---------------------------------------------------------------------------
-- Core model: shells and the shotgun  (source: class Shell, class Shotgun)
-- ---------------------------------------------------------------------------

/-- `class Shell(Enum): LIVE = 1; BLANK = 0` -/
inductive Shell
  | LIVE
  | BLANK
deriving DecidableEq, Repr

/-- LIVE ↔ BLANK, the toggle used by `Shotgun.invert_current`. -/
def Shell.flip : Shell → Shell
  | Shell.LIVE => Shell.BLANK
  | Shell.BLANK => Shell.LIVE

/-- `@dataclass class Shotgun: shells: List[Shell]; index: int = 0` -/
structure Shotgun where
  shells : List Shell
  index : Nat := 0
deriving DecidableEq, Repr

/-- Shared engine behind `random.shuffle` and `random.sample`: extract up to
`fuel` stream-chosen elements without replacement from `l`. -/
def drawGo {α : Type} (d : α) : Nat → List α → Rng → List α × Rng
  | 0, _, r => ([], r)
  | Nat.succ _, [], r => ([], r)
  | Nat.succ fuel, a :: l, r =>
    let (n, r1) := Rng.next r
    let i := n % (a :: l).length
    let x := (a :: l).getD i d
    let (tail, r2) := drawGo d fuel ((a :: l).eraseIdx i) r1
    (x :: tail, r2)

/-- `random.shuffle`: a stream-determined permutation of the list. -/
def shuffle (l : List Shell) (r : Rng) : List Shell × Rng :=
  drawGo Shell.BLANK l.length l r

theorem eraseIdx_cons_perm {α : Type} (d : α) (l : List α) (i : Nat) (h : i < l.length) :
    List.Perm (l.getD i d :: l.eraseIdx i) l := by
  have hsplit : l = l.take i ++ l.getD i d :: l.drop (i + 1) := by
    conv_lhs => rw [← List.take_append_drop i l]
    rw [List.drop_eq_getElem_cons h, List.getD_eq_getElem l d h]
  have herase : l.eraseIdx i = l.take i ++ l.drop (i + 1) :=
    List.eraseIdx_eq_take_drop_succ l i
  rw [herase]
  conv_rhs => rw [hsplit]
  exact (List.perm_middle).symm

theorem drawGo_perm {α : Type} (d : α) : ∀ (fuel : Nat) (l : List α) (r : Rng),
    l.length ≤ fuel → List.Perm (drawGo d fuel l r).1 l := by
  intro fuel
  induction fuel with
  | zero =>
    intro l r hl
    have : l = [] := List.length_eq_zero.mp (Nat.le_zero.mp hl)
    simp [drawGo, this]
  | succ fuel ih =>
    intro l r hl
    match l with
    | [] => simp [drawGo]
    | a :: l =>
      have hlen : 0 < (a :: l).length := by simp
      have hi : (Rng.next r).1 % (a :: l).length < (a :: l).length :=
        Nat.mod_lt _ hlen
      have hrec := ih ((a :: l).eraseIdx ((Rng.next r).1 % (a :: l).length)) (Rng.next r).2
        (by
          have := (a :: l).length_eraseIdx_of_lt hi
          simp only [List.length_cons] at hl this ⊢
          omega)
      simp only [drawGo]
      refine List.Perm.trans ?_ (eraseIdx_cons_perm d (a :: l) ((Rng.next r).1 % (a :: l).length) hi)
      exact List.Perm.cons _ hrec

theorem shuffle_perm (l : List Shell) (r : Rng) : List.Perm (shuffle l r).1 l :=
  drawGo_perm Shell.BLANK l.length l r (Nat.le_refl _)

theorem drawGo_length {α : Type} (d : α) : ∀ (fuel : Nat) (l : List α) (r : Rng),
    fuel ≤ l.length → (drawGo d fuel l r).1.length = fuel := by
  intro fuel
  induction fuel with
  | zero =>
    intro l r _
    simp [drawGo]
  | succ fuel ih =>
    intro l r hl
    match l with
    | [] => simp at hl
    | a :: l =>
      have hlen : 0 < (a :: l).length := by simp
      have hi : (Rng.next r).1 % (a :: l).length < (a :: l).length := Nat.mod_lt _ hlen
      have hrec := ih ((a :: l).eraseIdx ((Rng.next r).1 % (a :: l).length)) (Rng.next r).2
        (by
          have := (a :: l).length_eraseIdx_of_lt hi
          simp only [List.length_cons] at hl this ⊢
          omega)
      simp only [drawGo, List.length_cons] at hrec ⊢
      omega

theorem drawGo_subset {α : Type} (d : α) : ∀ (fuel : Nat) (l : List α) (r : Rng)
    (x : α), x ∈ (drawGo d fuel l r).1 → x ∈ l := by
  intro fuel
  induction fuel with
  | zero =>
    intro l r x hx
    simp [drawGo] at hx
  | succ fuel ih =>
    intro l r x hx
    match l with
    | [] => simp [drawGo] at hx
    | a :: l =>
      have hlen : 0 < (a :: l).length := by simp
      have hi : (Rng.next r).1 % (a :: l).length < (a :: l).length := Nat.mod_lt _ hlen
      simp only [drawGo, List.mem_cons] at hx
      rcases hx with hx | hx
      · rw [hx, List.getD_eq_getElem (a :: l) d hi]
        exact List.getElem_mem hi
      · exact ((eraseIdx_cons_perm d (a :: l) _ hi).subset
          (List.mem_cons_of_mem _ (ih _ _ _ hx)))

theorem drawGo_nodup {α : Type} (d : α) : ∀ (fuel : Nat) (l : List α) (r : Rng),
    l.Nodup → (drawGo d fuel l r).1.Nodup := by
  intro fuel
  induction fuel with
  | zero =>
    intro l r _
    simp [drawGo]
  | succ fuel ih =>
    intro l r hl
    match l with
    | [] => simp [drawGo]
    | a :: l =>
      have hlen : 0 < (a :: l).length := by simp
      have hi : (Rng.next r).1 % (a :: l).length < (a :: l).length := Nat.mod_lt _ hlen
      have hcons : ((a :: l).getD ((Rng.next r).1 % (a :: l).length) d ::
          (a :: l).eraseIdx ((Rng.next r).1 % (a :: l).length)).Nodup :=
        ((eraseIdx_cons_perm d (a :: l) _ hi).nodup_iff).mpr hl
      have hxe : (a :: l).getD ((Rng.next r).1 % (a :: l).length) d ∉
          (a :: l).eraseIdx ((Rng.next r).1 % (a :: l).length) := (List.nodup_cons.mp hcons).1
      have htail : ((a :: l).eraseIdx ((Rng.next r).1 % (a :: l).length)).Nodup :=
        (List.nodup_cons.mp hcons).2
      simp only [drawGo, List.nodup_cons]
      exact ⟨fun hmem => hxe (drawGo_subset d fuel _ _ _ hmem), ih _ _ htail⟩

namespace Shotgun

/-- `Shotgun.load(min_shells, max_shells)`:
`n = random.randint(min_shells, max_shells)`;
`live_count = random.randint(1, n - 1)`;
`shells = [LIVE] * live_count + [BLANK] * (n - live_count)`;
`random.shuffle(shells)`; `return Shotgun(shells=shells)`. -/
def load (min_shells max_shells : Nat) (r : Rng) : Shotgun × Rng :=
  let (n, r1) := randint min_shells max_shells r
  let (live_count, r2) := randint 1 (n - 1) r1
  let blanks := n - live_count
  let (shells, r3) :=
    shuffle (List.replicate live_count Shell.LIVE ++ List.replicate blanks Shell.BLANK) r2
  ({ shells := shells, index := 0 }, r3)

/-- `remaining(self) = len(self.shells) - self.index` -/
def remaining (g : Shotgun) : Nat := g.shells.length - g.index

/-- `counts_remaining(self)`: `(live, blank)` counts over `shells[index:]`. -/
def counts_remaining (g : Shotgun) : Nat × Nat :=
  let rem := g.shells.drop g.index
  (rem.count Shell.LIVE, rem.count Shell.BLANK)

/-- `peek_current(self) = self.shells[self.index]`; the out-of-range case
(python IndexError) is `none`. -/
def peek_current (g : Shotgun) : Option Shell := g.shells[g.index]?

/-- `fire(self)`: raises `RuntimeError("Tried to fire an empty shotgun.")`
if `index >= len(shells)`, else returns the current shell and advances. -/
def fire (g : Shotgun) : Except String (Shell × Shotgun) :=
  if g.shells.length ≤ g.index then
    Except.error "Tried to fire an empty shotgun."
  else
    match g.shells[g.index]? with
    | some s => Except.ok (s, { g with index := g.index + 1 })
    | none => Except.error "Tried to fire an empty shotgun."

/-- `eject_current(self) = self.fire()` (Beer effect). -/
def eject_current (g : Shotgun) : Except String (Shell × Shotgun) := g.fire

/-- `invert_current(self)`: flip the shell at the cursor in place, no-op
when `index >= len(shells)`. -/
def invert_current (g : Shotgun) : Shotgun :=
  if g.shells.length ≤ g.index then g
  else { g with shells := g.shells.set g.index (Shell.flip (g.shells.getD g.index Shell.BLANK)) }

end Shotgun

-- ---------------------------------------------------------------------------
-- Items and knowledge  (source: class ItemId, class Knowledge)
-- ---------------------------------------------------------------------------

/-- `class ItemId(Enum)` — the eight item identities. -/
inductive ItemId
  | MAGNIFYING_GLASS
  | BEER
  | HANDCUFFS
  | HAND_SAW
  | INVERTER
  | BURNER_PHONE
  | CIGARETTE
  | ADRENALINE
deriving DecidableEq, Repr

/-- `pool = list(ItemId)` — the full catalog in declaration order. -/
def ItemId.catalog : List ItemId :=
  [ItemId.MAGNIFYING_GLASS, ItemId.BEER, ItemId.HANDCUFFS, ItemId.HAND_SAW,
   ItemId.INVERTER, ItemId.BURNER_PHONE, ItemId.CIGARETTE, ItemId.ADRENALINE]

/-- `random.sample(pool, k)`: `k` elements without replacement. -/
def sample (pool : List ItemId) (k : Nat) (r : Rng) : List ItemId × Rng :=
  drawGo ItemId.MAGNIFYING_GLASS k pool r

/-- `random.choice(seq)` for item lists; the caller guards `seq` non-empty
(python would raise `IndexError` on an empty sequence). -/
def random_choice (l : List ItemId) (r : Rng) : ItemId × Rng :=
  ((l.getD ((Rng.next r).1 % l.length) ItemId.MAGNIFYING_GLASS), (Rng.next r).2)

/-- Python dict assignment `d[k] = v`: replace the binding when the key is
present, otherwise append it. -/
def dictInsert (d : List (Nat × Shell)) (k : Nat) (v : Shell) : List (Nat × Shell) :=
  if d.any (fun p => p.1 = k) then d.map (fun p => if p.1 = k then (k, v) else p)
  else d ++ [(k, v)]

/-- `@dataclass class Knowledge` -/
structure Knowledge where
  current_known : Option Shell := none
  known_positions : List (Nat × Shell) := []
deriving DecidableEq, Repr

-- ---------------------------------------------------------------------------
-- Actors  (source: @dataclass class Actor)
-- ---------------------------------------------------------------------------

structure Actor where
  name : String
  max_hp : Int := 4
  hp : Int := 4
  inventory : List ItemId := []
  skip_next : Bool := false
  dmg_mult : Int := 1
  ai : Bool := false
  knowledge : Knowledge := {}
deriving DecidableEq, Repr

namespace Actor

/-- `is_alive(self) = self.hp > 0` -/
def is_alive (a : Actor) : Bool := a.hp > 0

/-- `heal(self, n=1): self.hp = min(self.max_hp, self.hp + n)` -/
def heal (a : Actor) (n : Int := 1) : Actor :=
  { a with hp := min a.max_hp (a.hp + n) }

/-- `hurt(self, n=1): self.hp -= n` (no lower floor). -/
def hurt (a : Actor) (n : Int := 1) : Actor :=
  { a with hp := a.hp - n }

/-- `take_item(self, item_id): self.inventory.append(item_id)` -/
def take_item (a : Actor) (iid : ItemId) : Actor :=
  { a with inventory := a.inventory ++ [iid] }

/-- `pop_item(self, item_id)`: remove the first occurrence when present.
The python return value is unused by every caller, so only the state
effect is modelled. -/
def pop_item (a : Actor) (iid : ItemId) : Actor :=
  if iid ∈ a.inventory then { a with inventory := a.inventory.erase iid } else a

/-- Overwrite the actor's `knowledge.current_known`. -/
def withCK (a : Actor) (v : Option Shell) : Actor :=
  { a with knowledge := { a.knowledge with current_known := v } }

/-- `user.knowledge.known_positions[k] = v` (python dict assignment). -/
def withKnownPos (a : Actor) (k : Nat) (v : Shell) : Actor :=
  { a with knowledge :=
    { a.knowledge with known_positions := dictInsert a.knowledge.known_positions k v } }

end Actor

-- ---------------------------------------------------------------------------
-- Game state  (source: class Game, minus the presentation layer)
-- ---------------------------------------------------------------------------

/-- The two actor slots of `Game` (`self.player`, `self.dealer`); python
object identity (`a is self.player`) becomes equality of slots. -/
inductive Who
  | player
  | dealer
deriving DecidableEq, Repr

/-- `Game.other(self, a)` -/
def Who.other : Who → Who
  | Who.player => Who.dealer
  | Who.dealer => Who.player

/-- `@dataclass`-like view of `Game`'s core state: the two actors, the
turn pointer, the shotgun and the round counter. The transcript and
config are kept outside (config is passed explicitly; the transcript is
presentation state). -/
structure GState where
  player : Actor
  dealer : Actor
  turn : Who
  shotgun : Shotgun
  round_no : Nat
deriving DecidableEq, Repr

namespace GState

def get (g : GState) : Who → Actor
  | Who.player => g.player
  | Who.dealer => g.dealer

def set (g : GState) : Who → Actor → GState
  | Who.player, a => { g with player := a }
  | Who.dealer, a => { g with dealer := a }

/-- Set one actor's `knowledge.current_known = None`. -/
def clearCK (g : GState) (w : Who) : GState :=
  g.set w ((g.get w).withCK none)

end GState

/-- `class Config` (seed folded into the explicit `Rng` stream). -/
structure Config where
  min_shells : Nat := 2
  max_shells : Nat := 8
  player_max_hp : Int := 4
  dealer_max_hp : Int := 4
  items_per_round : Nat × Nat := (2, 4)
deriving DecidableEq, Repr

-- ---------------------------------------------------------------------------
-- Item effects  (source: classes MagnifyingGlass .. Adrenaline)
-- ---------------------------------------------------------------------------

/-- `MagnifyingGlass.use`: `user.knowledge.current_known = peek_current()`.
`peek_current` on an empty magazine is python `IndexError`. -/
def MagnifyingGlass.use (g : GState) (user : Who) : Except String GState :=
  match g.shotgun.peek_current with
  | none => Except.error "IndexError: list index out of range"
  | some shell => Except.ok (g.set user ((g.get user).withCK (some shell)))

/-- `Beer.use`: no-op when `remaining() == 0`; else eject the current shell
and set both actors' `current_known = None`. -/
def Beer.use (g : GState) (user : Who) : GState :=
  if g.shotgun.remaining = 0 then g
  else
    match g.shotgun.eject_current with
    | Except.error _ => g
    | Except.ok (_, sg) =>
      (({ g with shotgun := sg }).clearCK user).clearCK (Who.other user)

/-- `Handcuffs.use`: `target.skip_next = True`. -/
def Handcuffs.use (g : GState) (target : Who) : GState :=
  g.set target { g.get target with skip_next := true }

/-- `HandSaw.use`: `user.dmg_mult = 2`. -/
def HandSaw.use (g : GState) (user : Who) : GState :=
  g.set user { g.get user with dmg_mult := 2 }

/-- `Inverter.use`: flip the chambered shell in place, and flip the user's
`current_known` in lockstep when it is set. -/
def Inverter.use (g : GState) (user : Who) : GState :=
  let g1 := { g with shotgun := g.shotgun.invert_current }
  match (g1.get user).knowledge.current_known with
  | none => g1
  | some s => g1.set user ((g1.get user).withCK (some (Shell.flip s)))

/-- `BurnerPhone.use`: no-op when `remaining() <= 1`; else reveal the shell
at absolute index `index + randint(1, remaining()-1)` into the user's
`known_positions`. -/
def BurnerPhone.use (g : GState) (user : Who) (r : Rng) : GState × Rng :=
  let rem := g.shotgun.remaining
  if rem ≤ 1 then (g, r)
  else
    let (rel_idx, r1) := randint 1 (rem - 1) r
    let abs_idx := g.shotgun.index + rel_idx
    let shell := g.shotgun.shells.getD abs_idx Shell.BLANK
    (g.set user ((g.get user).withKnownPos abs_idx shell), r1)

/-- `Cigarette.use`: `user.heal(1)`. -/
def Cigarette.use (g : GState) (user : Who) : GState :=
  g.set user ((g.get user).heal 1)

-- ---------------------------------------------------------------------------
-- Human input model and item dispatch
-- ---------------------------------------------------------------------------

/-- A script of answers to `input()` prompts inside `prompt_choose_item`:
`none` is pressing ENTER (decline), `some iid` is typing the number of
that inventory entry. -/
abbrev HumanAnswers := List (Option ItemId)

/-- `Game.prompt_choose_item(actor, prompt)`: returns `None` at once for an
AI actor or an empty inventory; otherwise loops over answers until a
decline or a valid entry, popping the chosen item as a side effect.
Invalid answers ("Invalid choice.") re-prompt; an exhausted script is a
decline. -/
def prompt_choose_item (g : GState) (who : Who) : HumanAnswers → Option ItemId × GState × HumanAnswers
  | [] => (none, g, [])
  | ans :: rest =>
    let a := g.get who
    if a.ai || a.inventory = [] then (none, g, ans :: rest)
    else
      match ans with
      | none => (none, g, rest)
      | some iid =>
        if iid ∈ a.inventory then (some iid, g.set who (a.pop_item iid), rest)
        else prompt_choose_item g who rest

/-- One extra guard for the empty script: python would block on `input()`;
the model returns a decline. -/
theorem prompt_choose_item_ai (g : GState) (who : Who) (hs : HumanAnswers)
    (h : (g.get who).ai = true) : (prompt_choose_item g who hs).1 = none := by
  match hs with
  | [] => rfl
  | ans :: rest => simp [prompt_choose_item, h]

/-- `Item.use` dispatch over the registry, with `fuel` bounding Adrenaline's
steal-and-use-immediately recursion (python recurses through
`ITEM_REGISTRY[steal_id].use`). Carries the random stream and the human
answer script. -/
def useItem : Nat → ItemId → GState → Who → Who → Rng → HumanAnswers →
    Except String (GState × Rng × HumanAnswers)
  | _, ItemId.MAGNIFYING_GLASS, g, user, _, r, hs =>
    match MagnifyingGlass.use g user with
    | Except.error e => Except.error e
    | Except.ok g' => Except.ok (g', r, hs)
  | _, ItemId.BEER, g, user, _, r, hs => Except.ok (Beer.use g user, r, hs)
  | _, ItemId.HANDCUFFS, g, _, target, r, hs => Except.ok (Handcuffs.use g target, r, hs)
  | _, ItemId.HAND_SAW, g, user, _, r, hs => Except.ok (HandSaw.use g user, r, hs)
  | _, ItemId.INVERTER, g, user, _, r, hs => Except.ok (Inverter.use g user, r, hs)
  | _, ItemId.BURNER_PHONE, g, user, _, r, hs =>
    Except.ok ((BurnerPhone.use g user r).1, (BurnerPhone.use g user r).2, hs)
  | _, ItemId.CIGARETTE, g, user, _, r, hs => Except.ok (Cigarette.use g user, r, hs)
  | fuel, ItemId.ADRENALINE, g, user, target, r, hs =>
    if (g.get target).inventory = [] then Except.ok (g, r, hs)
    else if (g.get user).ai then
      let (steal_id, r1) := random_choice (g.get target).inventory r
      let g2 := g.set target ((g.get target).pop_item steal_id)
      match fuel with
      | 0 => Except.error "model: adrenaline fuel exhausted"
      | Nat.succ fuel' => useItem fuel' steal_id g2 user target r1 hs
    else
      match prompt_choose_item g target hs with
      | (none, g1, hs1) => Except.ok (g1, r, hs1)
      | (some steal_id, g1, hs1) =>
        let g2 := g1.set target ((g1.get target).pop_item steal_id)
        match fuel with
        | 0 => Except.error "model: adrenaline fuel exhausted"
        | Nat.succ fuel' => useItem fuel' steal_id g2 user target r hs1

-- ---------------------------------------------------------------------------
-- Game engine  (source: Game.deal_items, resolve_shot, turn_loop)
-- ---------------------------------------------------------------------------

/-- One actor's share of `Game.deal_items`: clear the inventory, draw
`k = randint(*items_per_round)`, extend with `random.sample(pool, k)`,
reset the knowledge store. -/
def deal_one (cfg : Config) (a : Actor) (r : Rng) : Actor × Rng :=
  let (k, r1) := randint cfg.items_per_round.1 cfg.items_per_round.2 r
  let (inv, r2) := sample ItemId.catalog k r1
  ({ a with inventory := inv, knowledge := {} }, r2)

/-- `Game.deal_items`: player first, then dealer. -/
def deal_items (cfg : Config) (g : GState) (r : Rng) : GState × Rng :=
  let (p, r1) := deal_one cfg g.player r
  let (d, r2) := deal_one cfg g.dealer r1
  ({ g with player := p, dealer := d }, r2)

/-- `Game.resolve_shot(shooter, target)`: fire, clear both actors'
`current_known`, apply damage on LIVE, always reset the shooter's
`dmg_mult`, and return whether the shooter keeps the turn. -/
def resolve_shot (g : GState) (shooter target : Who) : Except String (GState × Bool) :=
  match g.shotgun.fire with
  | Except.error e => Except.error e
  | Except.ok (shell, sg) =>
    let g1 := (({ g with shotgun := sg }).clearCK shooter).clearCK (Who.other shooter)
    if shell = Shell.LIVE then
      let dmg := (g1.get shooter).dmg_mult
      let g2 := g1.set target ((g1.get target).hurt dmg)
      let g3 := g2.set shooter { g2.get shooter with dmg_mult := 1 }
      Except.ok (g3, false)
    else
      let g2 := g1.set shooter { g1.get shooter with dmg_mult := 1 }
      Except.ok (g2, decide (shooter = target))

/-- The outcome of the prologue of `Game.turn_loop`. -/
inductive Prologue
  | skipped
  | reloaded
  | proceed
deriving DecidableEq, Repr

/-- The prologue of `Game.turn_loop`: the skip check, then the reload check
(`remaining() == 0` → new round: bump the counter, `Shotgun.load`,
`deal_items`, turn forced to the player). On `proceed` the state is
untouched and the turn continues into the item/aim/shot phases. -/
def turn_start (cfg : Config) (g : GState) (r : Rng) : Prologue × GState × Rng :=
  let actor := g.turn
  if (g.get actor).skip_next then
    (Prologue.skipped,
     { g.set actor { g.get actor with skip_next := false } with turn := Who.other actor }, r)
  else if g.shotgun.remaining = 0 then
    let (sg, r1) := Shotgun.load cfg.min_shells cfg.max_shells r
    let g1 := { g with round_no := g.round_no + 1, shotgun := sg }
    let (g2, r2) := deal_items cfg g1 r1
    (Prologue.reloaded, { g2 with turn := Who.player }, r2)
  else (Prologue.proceed, g, r)

/-- `Game.use_item_flow` for a human actor: repeatedly prompt and apply
items until a decline; the fuel bounds the loop and is instantiated with
the script length, which the loop consumes. -/
def use_item_flow_go : Nat → GState → Who → Rng → HumanAnswers →
    Except String (GState × Rng × HumanAnswers)
  | 0, g, _, r, hs => Except.ok (g, r, hs)
  | Nat.succ fuel, g, actor, r, hs =>
    match prompt_choose_item g actor hs with
    | (none, g1, hs1) => Except.ok (g1, r, hs1)
    | (some iid, g1, hs1) =>
      match useItem 8 iid g1 actor (Who.other actor) r hs1 with
      | Except.error e => Except.error e
      | Except.ok (g2, r2, hs2) => use_item_flow_go fuel g2 actor r2 hs2

def use_item_flow (g : GState) (actor : Who) (r : Rng) (hs : HumanAnswers) :
    Except String (GState × Rng × HumanAnswers) :=
  use_item_flow_go (hs.length + 1) g actor r hs

/-- The tail of `Game.turn_loop`: `keep_turn = resolve_shot(actor, target)`,
then `if not keep_turn: self.turn = opp`. -/
def shot_and_handoff (g : GState) (target : Who) : Except String GState :=
  let actor := g.turn
  match resolve_shot g actor target with
  | Except.error e => Except.error e
  | Except.ok (g1, keep_turn) =>
    Except.ok (if keep_turn then g1 else { g1 with turn := Who.other actor })

/-- `Game.turn_loop` for a human acting actor: prologue, item phase driven
by the answer script, aim (`shootSelf` scripts the S/D answer), shot
resolution and handoff. A `RuntimeError`/`IndexError` escaping the python
loop is an `Except.error`. -/
def turn_loop_human (cfg : Config) (g : GState) (shootSelf : Bool) (r : Rng)
    (hs : HumanAnswers) : Except String GState :=
  match turn_start cfg g r with
  | (Prologue.skipped, g', _) => Except.ok g'
  | (Prologue.reloaded, g', _) => Except.ok g'
  | (Prologue.proceed, g1, r1) =>
    let actor := g1.turn
    match use_item_flow g1 actor r1 hs with
    | Except.error e => Except.error e
    | Except.ok (g2, _, _) =>
      let target := if shootSelf then actor else Who.other actor
      shot_and_handoff { g2 with turn := actor } target

-- ---------------------------------------------------------------------------
-- Basic state-access lemmas
-- ---------------------------------------------------------------------------

@[simp] theorem GState.turn_set (g : GState) (w : Who) (a : Actor) :
    (g.set w a).turn = g.turn := by
  cases w <;> rfl

@[simp] theorem GState.shotgun_set (g : GState) (w : Who) (a : Actor) :
    (g.set w a).shotgun = g.shotgun := by
  cases w <;> rfl

@[simp] theorem GState.round_no_set (g : GState) (w : Who) (a : Actor) :
    (g.set w a).round_no = g.round_no := by
  cases w <;> rfl

@[simp] theorem GState.get_set_self (g : GState) (w : Who) (a : Actor) :
    (g.set w a).get w = a := by
  cases w <;> rfl

theorem GState.get_set_other (g : GState) (w v : Who) (a : Actor) (h : v ≠ w) :
    (g.set w a).get v = g.get v := by
  cases w <;> cases v <;> first | rfl | exact absurd rfl h

@[simp] theorem Who.other_other (w : Who) : w.other.other = w := by
  cases w <;> rfl

theorem Who.other_ne (w : Who) : w.other ≠ w := by
  cases w <;> simp [Who.other]

theorem Who.ne_iff_eq_other (w v : Who) : v ≠ w ↔ v = w.other := by
  cases w <;> cases v <;> simp [Who.other]

@[simp] theorem GState.clearCK_turn (g : GState) (w : Who) :
    (g.clearCK w).turn = g.turn := by
  simp [GState.clearCK]

@[simp] theorem GState.clearCK_shotgun (g : GState) (w : Who) :
    (g.clearCK w).shotgun = g.shotgun := by
  simp [GState.clearCK]

-- ---------------------------------------------------------------------------
-- C9
-- ---------------------------------------------------------------------------

/-- **C9.** `fire()` and `ejectCurrent()` raise the "empty magazine" error
exactly when `cursor ≥ N` (and, the functions being pure until the check
passes, the sequence and cursor are untouched in that case); otherwise
each returns the shell at the cursor with the cursor advanced by exactly
one, so the cursor never exceeds `N`. -/
theorem c9_fire_eject_cursor (g : Shotgun) :
    g.eject_current = g.fire ∧
    (g.fire = Except.error "Tried to fire an empty shotgun." ↔ g.shells.length ≤ g.index) ∧
    (g.index < g.shells.length →
      g.fire = Except.ok (g.shells.getD g.index Shell.BLANK, { g with index := g.index + 1 }) ∧
      g.index + 1 ≤ g.shells.length) := by
  refine ⟨rfl, ?_, ?_⟩
  · constructor
    · intro hfire
      by_contra hlt
      push_neg at hlt
      rw [Shotgun.fire, if_neg (by omega), List.getElem?_eq_getElem hlt] at hfire
      exact Except.noConfusion hfire
    · intro hle
      rw [Shotgun.fire, if_pos hle]
  · intro hlt
    refine ⟨?_, by omega⟩
    rw [Shotgun.fire, if_neg (by omega), List.getElem?_eq_getElem hlt,
      List.getD_eq_getElem g.shells Shell.BLANK hlt]

/-- Witness for C9 at concrete shotguns: `⟨[LIVE, BLANK], 1⟩` succeeds and
advances to 2; `⟨[LIVE], 1⟩` errors. -/
theorem c9_fire_eject_cursor_witness :
    (Shotgun.mk [Shell.LIVE, Shell.BLANK] 1).fire =
      Except.ok (Shell.BLANK, Shotgun.mk [Shell.LIVE, Shell.BLANK] 2) ∧
    (Shotgun.mk [Shell.LIVE] 1).fire = Except.error "Tried to fire an empty shotgun." := by
  constructor
  · exact ((c9_fire_eject_cursor (Shotgun.mk [Shell.LIVE, Shell.BLANK] 1)).2.2 (by decide)).1
  · exact (c9_fire_eject_cursor (Shotgun.mk [Shell.LIVE] 1)).2.1.mpr (by decide)

-- ---------------------------------------------------------------------------
-- C4
-- ---------------------------------------------------------------------------

/-- The load invariant, shared between the C4 theorem and the reload
analysis of C5. -/
theorem load_invariant_props (min_shells max_shells : Nat) (r : Rng)
    (h2 : 2 ≤ min_shells) (hmm : min_shells ≤ max_shells) :
    min_shells ≤ ((Shotgun.load min_shells max_shells r).1).shells.length ∧
    ((Shotgun.load min_shells max_shells r).1).shells.length ≤ max_shells ∧
    1 ≤ ((Shotgun.load min_shells max_shells r).1).shells.count Shell.LIVE ∧
    ((Shotgun.load min_shells max_shells r).1).shells.count Shell.LIVE ≤
      ((Shotgun.load min_shells max_shells r).1).shells.length - 1 ∧
    ((Shotgun.load min_shells max_shells r).1).index = 0 ∧
    ((Shotgun.load min_shells max_shells r).1).counts_remaining =
      (((Shotgun.load min_shells max_shells r).1).shells.count Shell.LIVE,
       ((Shotgun.load min_shells max_shells r).1).shells.length -
         ((Shotgun.load min_shells max_shells r).1).shells.count Shell.LIVE) := by
  have hn_ge : min_shells ≤ (randint min_shells max_shells r).1 := randint_ge _ _ _
  have hn_le : (randint min_shells max_shells r).1 ≤ max_shells := randint_le _ _ _ hmm
  set n := (randint min_shells max_shells r).1 with hn
  set r1 := (randint min_shells max_shells r).2 with hr1
  have hl_ge : 1 ≤ (randint 1 (n - 1) r1).1 := randint_ge _ _ _
  have hl_le : (randint 1 (n - 1) r1).1 ≤ n - 1 := randint_le _ _ _ (by omega)
  set live := (randint 1 (n - 1) r1).1 with hlive
  set r2 := (randint 1 (n - 1) r1).2 with hr2
  set base := List.replicate live Shell.LIVE ++ List.replicate (n - live) Shell.BLANK
    with hbase
  have hperm : List.Perm (shuffle base r2).1 base := shuffle_perm base r2
  have hsg : (Shotgun.load min_shells max_shells r).1 =
      { shells := (shuffle base r2).1, index := 0 } := by
    rw [Shotgun.load]
  have hlen_base : base.length = n := by
    rw [hbase]
    simp only [List.length_append, List.length_replicate]
    omega
  have hlen : (shuffle base r2).1.length = n := by
    rw [hperm.length_eq, hlen_base]
  have hcount_live : (shuffle base r2).1.count Shell.LIVE = live := by
    rw [hperm.count_eq, hbase, List.count_append]
    simp [List.count_replicate]
  have hcount_blank : (shuffle base r2).1.count Shell.BLANK = n - live := by
    rw [hperm.count_eq, hbase, List.count_append]
    simp [List.count_replicate]
  rw [hsg]
  simp only [Shotgun.counts_remaining, List.drop_zero]
  rw [hlen, hcount_live, hcount_blank]
  exact ⟨hn_ge, hn_le, by omega, by omega, by trivial, by trivial⟩

/-- **C4.** Every shell sequence produced by `load(min_shells, max_shells)`
with `2 ≤ min_shells ≤ max_shells` has total length `N ∈ [min_shells,
max_shells]`, live count in `[1, N-1]` (so at least one LIVE and one
BLANK), cursor 0, and `countsRemaining()` at creation equal to
`(liveCount, N - liveCount)`. -/
theorem c4_load_invariant (min_shells max_shells : Nat) (r : Rng)
    (h2 : 2 ≤ min_shells) (hmm : min_shells ≤ max_shells) :
    min_shells ≤ ((Shotgun.load min_shells max_shells r).1).shells.length ∧
    ((Shotgun.load min_shells max_shells r).1).shells.length ≤ max_shells ∧
    1 ≤ ((Shotgun.load min_shells max_shells r).1).shells.count Shell.LIVE ∧
    ((Shotgun.load min_shells max_shells r).1).shells.count Shell.LIVE ≤
      ((Shotgun.load min_shells max_shells r).1).shells.length - 1 ∧
    ((Shotgun.load min_shells max_shells r).1).index = 0 ∧
    ((Shotgun.load min_shells max_shells r).1).counts_remaining =
      (((Shotgun.load min_shells max_shells r).1).shells.count Shell.LIVE,
       ((Shotgun.load min_shells max_shells r).1).shells.length -
         ((Shotgun.load min_shells max_shells r).1).shells.count Shell.LIVE) :=
  load_invariant_props min_shells max_shells r h2 hmm

/-- Witness for C4 at `min_shells = 2`, `max_shells = 8` and an explicit
random stream. -/
theorem c4_load_invariant_witness :
    2 ≤ ((Shotgun.load 2 8 [3, 1, 0, 2]).1).shells.length ∧
    ((Shotgun.load 2 8 [3, 1, 0, 2]).1).shells.length ≤ 8 ∧
    1 ≤ ((Shotgun.load 2 8 [3, 1, 0, 2]).1).shells.count Shell.LIVE ∧
    ((Shotgun.load 2 8 [3, 1, 0, 2]).1).shells.count Shell.LIVE ≤
      ((Shotgun.load 2 8 [3, 1, 0, 2]).1).shells.length - 1 ∧
    ((Shotgun.load 2 8 [3, 1, 0, 2]).1).index = 0 ∧
    ((Shotgun.load 2 8 [3, 1, 0, 2]).1).counts_remaining =
      (((Shotgun.load 2 8 [3, 1, 0, 2]).1).shells.count Shell.LIVE,
       ((Shotgun.load 2 8 [3, 1, 0, 2]).1).shells.length -
         ((Shotgun.load 2 8 [3, 1, 0, 2]).1).shells.count Shell.LIVE) :=
  c4_load_invariant 2 8 [3, 1, 0, 2] (by decide) (by decide)


@[simp] theorem Actor.withCK_hp (a : Actor) (v : Option Shell) : (a.withCK v).hp = a.hp := rfl

@[simp] theorem Actor.withCK_dmg_mult (a : Actor) (v : Option Shell) :
    (a.withCK v).dmg_mult = a.dmg_mult := rfl

@[simp] theorem Actor.withCK_current_known (a : Actor) (v : Option Shell) :
    (a.withCK v).knowledge.current_known = v := rfl

theorem GState.clearCK_get_hp (g : GState) (w v : Who) :
    ((g.clearCK w).get v).hp = (g.get v).hp := by
  cases w <;> cases v <;> rfl

theorem GState.clearCK_get_dmg_mult (g : GState) (w v : Who) :
    ((g.clearCK w).get v).dmg_mult = (g.get v).dmg_mult := by
  cases w <;> cases v <;> rfl

@[simp] theorem GState.get_setShotgun (g : GState) (sg : Shotgun) (v : Who) :
    (GState.mk g.player g.dealer g.turn sg g.round_no).get v = g.get v := by
  cases v <;> rfl

def resolve_shot_ok (g : GState) (shooter target : Who) (shell : Shell) (sg : Shotgun) :
    GState × Bool :=
  let g1 := (({ g with shotgun := sg }).clearCK shooter).clearCK (Who.other shooter)
  if shell = Shell.LIVE then
    let dmg := (g1.get shooter).dmg_mult
    let g2 := g1.set target ((g1.get target).hurt dmg)
    let g3 := g2.set shooter { g2.get shooter with dmg_mult := 1 }
    (g3, false)
  else
    let g2 := g1.set shooter { g1.get shooter with dmg_mult := 1 }
    (g2, decide (shooter = target))

theorem resolve_shot_eq (g : GState) (shooter target : Who) (shell : Shell) (sg : Shotgun)
    (hfire : g.shotgun.fire = Except.ok (shell, sg)) :
    resolve_shot g shooter target = Except.ok (resolve_shot_ok g shooter target shell sg) := by
  simp only [resolve_shot, hfire]
  cases shell <;> rfl

theorem resolve_shot_ok_keep (g : GState) (shooter target : Who) (shell : Shell) (sg : Shotgun) :
    (resolve_shot_ok g shooter target shell sg).2 =
      (decide (shell = Shell.BLANK) && decide (shooter = target)) := by
  cases shell <;> simp [resolve_shot_ok]

theorem resolve_shot_ok_turn (g : GState) (shooter target : Who) (shell : Shell) (sg : Shotgun) :
    (resolve_shot_ok g shooter target shell sg).1.turn = g.turn := by
  cases shell <;> simp [resolve_shot_ok]

theorem shot_and_handoff_eq (g : GState) (target : Who) (shell : Shell) (sg : Shotgun)
    (hfire : g.shotgun.fire = Except.ok (shell, sg)) :
    shot_and_handoff g target =
      Except.ok (if (resolve_shot_ok g g.turn target shell sg).2
                 then (resolve_shot_ok g g.turn target shell sg).1
                 else { (resolve_shot_ok g g.turn target shell sg).1 with
                        turn := Who.other g.turn }) := by
  simp only [shot_and_handoff]
  rw [resolve_shot_eq g g.turn target shell sg hfire]

theorem resolve_shot_ok_live_hp (g : GState) (shooter target : Who) (sg : Shotgun) :
    ((resolve_shot_ok g shooter target Shell.LIVE sg).1.get target).hp =
      (g.get target).hp - (g.get shooter).dmg_mult := by
  simp only [resolve_shot_ok, if_pos]
  by_cases hts : target = shooter
  · subst hts
    rw [GState.get_set_self]
    simp [Actor.hurt, GState.clearCK_get_hp, GState.clearCK_get_dmg_mult]
  · rw [GState.get_set_other _ _ _ _ hts, GState.get_set_self]
    simp [Actor.hurt, GState.clearCK_get_hp, GState.clearCK_get_dmg_mult]

/-- **C3.** After every shot resolution by the acting actor against target
`T`: a LIVE shell always hands the turn to the opponent, regardless of
the target; a BLANK shell hands the turn over unless the shooter targeted
themself, in which case the shooter keeps the turn. -/
theorem c3_turn_retention (g : GState) (target : Who) (shell : Shell) (sg : Shotgun)
    (hfire : g.shotgun.fire = Except.ok (shell, sg)) :
    ∃ g', shot_and_handoff g target = Except.ok g' ∧
      g'.turn = if shell = Shell.BLANK ∧ target = g.turn then g.turn
                else Who.other g.turn := by
  refine ⟨_, shot_and_handoff_eq g target shell sg hfire, ?_⟩
  rw [resolve_shot_ok_keep]
  cases shell with
  | LIVE => simp
  | BLANK =>
    by_cases ht : g.turn = target
    · simp [ht, resolve_shot_ok_turn]
    · have ht' : ¬(target = g.turn) := fun h => ht h.symm
      simp [ht, ht']

/-- Witness for C3: a BLANK self-shot retains the turn for the player. -/
theorem c3_turn_retention_witness :
    ∃ g', shot_and_handoff
        { player := { name := "You" }, dealer := { name := "Dealer", ai := true },
          turn := Who.player, shotgun := { shells := [Shell.BLANK, Shell.LIVE], index := 0 },
          round_no := 1 } Who.player = Except.ok g' ∧
      g'.turn = Who.player :=
  match c3_turn_retention
      { player := { name := "You" }, dealer := { name := "Dealer", ai := true },
        turn := Who.player, shotgun := { shells := [Shell.BLANK, Shell.LIVE], index := 0 },
        round_no := 1 } Who.player Shell.BLANK
      { shells := [Shell.BLANK, Shell.LIVE], index := 1 } rfl with
  | ⟨g', hok, hturn⟩ => ⟨g', hok, by simpa using hturn⟩

/-- **C8.** After every resolved shot by shooter `A` with pre-shot damage
multiplier `m`: `A.dmg_mult = 1` afterwards whether the shell was LIVE or
BLANK, and on LIVE the target's HP drops by exactly `m`, with no lower
floor on HP. -/
theorem c8_dmg_mult_reset (g : GState) (shooter target : Who) (shell : Shell) (sg : Shotgun)
    (hfire : g.shotgun.fire = Except.ok (shell, sg)) :
    ∃ g1 keep, resolve_shot g shooter target = Except.ok (g1, keep) ∧
      (g1.get shooter).dmg_mult = 1 ∧
      (shell = Shell.LIVE →
        (g1.get target).hp = (g.get target).hp - (g.get shooter).dmg_mult) := by
  refine ⟨(resolve_shot_ok g shooter target shell sg).1,
    (resolve_shot_ok g shooter target shell sg).2,
    by rw [resolve_shot_eq g shooter target shell sg hfire], ?_, ?_⟩
  · cases shell with
    | LIVE => simp [resolve_shot_ok]
    | BLANK => simp [resolve_shot_ok]
  · intro hlive
    subst hlive
    exact resolve_shot_ok_live_hp g shooter target sg

/-- Witness for C8: a Hand-Sawed LIVE self-shot takes the player from 1 HP
to -1 HP (no floor) and resets the multiplier. -/
theorem c8_dmg_mult_reset_witness :
    ∃ g1 keep, resolve_shot
        { player := { name := "You", hp := 1, dmg_mult := 2 },
          dealer := { name := "Dealer", ai := true }, turn := Who.player,
          shotgun := { shells := [Shell.LIVE], index := 0 }, round_no := 1 }
        Who.player Who.player = Except.ok (g1, keep) ∧
      (g1.get Who.player).dmg_mult = 1 ∧
      (g1.get Who.player).hp = -1 :=
  match c8_dmg_mult_reset
      { player := { name := "You", hp := 1, dmg_mult := 2 },
        dealer := { name := "Dealer", ai := true }, turn := Who.player,
        shotgun := { shells := [Shell.LIVE], index := 0 }, round_no := 1 }
      Who.player Who.player Shell.LIVE { shells := [Shell.LIVE], index := 1 }
      rfl with
  | ⟨g1, keep, hok, hdmg, hhp⟩ => ⟨g1, keep, hok, hdmg, by rw [hhp rfl]; rfl⟩

-- ---------------------------------------------------------------------------
-- C6
-- ---------------------------------------------------------------------------

/-- **C6.** With at least one shell remaining, the Inverter replaces the
shell at the cursor by its negation without moving the cursor (and
touches no other position); and when the user's `current_known` was set
before the use it equals the negation of its prior value afterwards, and
— when it was accurate before — still equals `peekCurrent()`. -/
theorem c6_inverter (g : GState) (user : Who)
    (h : g.shotgun.index < g.shotgun.shells.length) :
    (Inverter.use g user).shotgun.index = g.shotgun.index ∧
    (Inverter.use g user).shotgun.shells[g.shotgun.index]? =
      some (Shell.flip (g.shotgun.shells.getD g.shotgun.index Shell.BLANK)) ∧
    (∀ j, j ≠ g.shotgun.index →
      (Inverter.use g user).shotgun.shells[j]? = g.shotgun.shells[j]?) ∧
    (∀ s, (g.get user).knowledge.current_known = some s →
      ((Inverter.use g user).get user).knowledge.current_known = some (Shell.flip s) ∧
      (g.shotgun.peek_current = some s →
        (Inverter.use g user).shotgun.peek_current =
          ((Inverter.use g user).get user).knowledge.current_known)) := by
  have hsg : (Inverter.use g user).shotgun = g.shotgun.invert_current := by
    unfold Inverter.use
    cases hck : (g.get user).knowledge.current_known <;> simp [hck]
  have hinv : g.shotgun.invert_current =
      { g.shotgun with shells := g.shotgun.shells.set g.shotgun.index (Shell.flip (g.shotgun.shells.getD g.shotgun.index Shell.BLANK)) } := by
    unfold Shotgun.invert_current
    rw [if_neg (by omega)]
  refine ⟨?_, ?_, ?_, ?_⟩
  · rw [hsg, hinv]
  · rw [hsg, hinv]
    exact List.getElem?_set_eq_of_lt _ h
  · intro j hj
    rw [hsg, hinv]
    exact List.getElem?_set_ne (fun he => hj he.symm)
  · intro s hck
    have huse : Inverter.use g user =
        ({ g with shotgun := g.shotgun.invert_current } : GState).set user
          ((({ g with shotgun := g.shotgun.invert_current } : GState).get user).withCK
            (some (Shell.flip s))) := by
      unfold Inverter.use
      simp [hck]
    constructor
    · rw [huse]
      simp
    · intro hpeek
      have hgetD : g.shotgun.shells.getD g.shotgun.index Shell.BLANK = s := by
        have := List.getElem?_eq_getElem h
        rw [Shotgun.peek_current, this] at hpeek
        rw [List.getD_eq_getElem _ _ h]
        exact Option.some.inj hpeek
      have h2 : (Inverter.use g user).shotgun.peek_current = some (Shell.flip s) := by
        rw [Shotgun.peek_current, hsg, hinv, hgetD]
        exact List.getElem?_set_eq_of_lt _ h
      rw [h2, huse]
      simp

/-- Witness for C6: shells `[LIVE, BLANK]`, cursor 0, user knows LIVE; after
the Inverter the chamber holds BLANK, the knowledge reads BLANK and still
matches `peekCurrent()`. -/
theorem c6_inverter_witness :
    (Inverter.use
        { player := { name := "You", knowledge := { current_known := some Shell.LIVE, known_positions := [] } },
          dealer := { name := "Dealer", ai := true }, turn := Who.player,
          shotgun := { shells := [Shell.LIVE, Shell.BLANK], index := 0 }, round_no := 1 }
        Who.player).shotgun.shells[0]? = some Shell.BLANK ∧
    ((Inverter.use
        { player := { name := "You", knowledge := { current_known := some Shell.LIVE, known_positions := [] } },
          dealer := { name := "Dealer", ai := true }, turn := Who.player,
          shotgun := { shells := [Shell.LIVE, Shell.BLANK], index := 0 }, round_no := 1 }
        Who.player).get Who.player).knowledge.current_known = some Shell.BLANK :=
  match c6_inverter
      { player := { name := "You", knowledge := { current_known := some Shell.LIVE, known_positions := [] } },
        dealer := { name := "Dealer", ai := true }, turn := Who.player,
        shotgun := { shells := [Shell.LIVE, Shell.BLANK], index := 0 }, round_no := 1 }
      Who.player (by decide) with
  | ⟨_, hcur, _, hknow⟩ => ⟨hcur, (hknow Shell.LIVE rfl).1⟩

-- ---------------------------------------------------------------------------
-- C7
-- ---------------------------------------------------------------------------

/-- A compact concrete game state used by witnesses: human "You" vs AI
"Dealer", player to move, round 1, and the given shell magazine. -/
def mkGame (sh : List Shell) (i : Nat) : GState :=
  { player := { name := "You" }, dealer := { name := "Dealer", ai := true },
    turn := Who.player, shotgun := { shells := sh, index := i }, round_no := 1 }

/-- **C7.** Burner Phone with `remaining() <= 1` changes no state at all (a
logged no-op); otherwise it records into the user's `known_positions`
exactly the binding `k ↦ shells[k]` for some absolute index `k` strictly
between the cursor and `N`, leaving everything else unchanged. -/
theorem c7_burner_phone (g : GState) (user : Who) (r : Rng) :
    (g.shotgun.remaining ≤ 1 → BurnerPhone.use g user r = (g, r)) ∧
    (2 ≤ g.shotgun.remaining →
      ∃ k v, g.shotgun.index < k ∧ k < g.shotgun.shells.length ∧
        g.shotgun.shells[k]? = some v ∧
        (BurnerPhone.use g user r).1 = g.set user ((g.get user).withKnownPos k v)) := by
  constructor
  · intro h1
    unfold BurnerPhone.use
    rw [if_pos h1]
  · intro h2
    have hrel_ge : 1 ≤ (randint 1 (g.shotgun.remaining - 1) r).1 := randint_ge _ _ _
    have hrel_le : (randint 1 (g.shotgun.remaining - 1) r).1 ≤ g.shotgun.remaining - 1 :=
      randint_le _ _ _ (by omega)
    have hremdef : g.shotgun.remaining = g.shotgun.shells.length - g.shotgun.index := rfl
    have hidx : g.shotgun.index < g.shotgun.shells.length := by omega
    have hk : g.shotgun.index + (randint 1 (g.shotgun.remaining - 1) r).1 <
        g.shotgun.shells.length := by omega
    refine ⟨g.shotgun.index + (randint 1 (g.shotgun.remaining - 1) r).1,
      g.shotgun.shells.getD (g.shotgun.index + (randint 1 (g.shotgun.remaining - 1) r).1)
        Shell.BLANK,
      by omega, hk, ?_, ?_⟩
    · rw [List.getElem?_eq_getElem hk, List.getD_eq_getElem _ _ hk]
    · unfold BurnerPhone.use
      rw [if_neg (by omega)]

/-- Witness for C7 at both branches: one shell left is a complete no-op;
with three shells left one strictly-future position is revealed. -/
theorem c7_burner_phone_witness :
    BurnerPhone.use (mkGame [Shell.LIVE] 0) Who.player [5] = (mkGame [Shell.LIVE] 0, [5]) ∧
    (∃ k v, 0 < k ∧ k < 3 ∧
      (mkGame [Shell.BLANK, Shell.LIVE, Shell.BLANK] 0).shotgun.shells[k]? = some v ∧
      (BurnerPhone.use (mkGame [Shell.BLANK, Shell.LIVE, Shell.BLANK] 0) Who.player [5]).1 =
        (mkGame [Shell.BLANK, Shell.LIVE, Shell.BLANK] 0).set Who.player
          (((mkGame [Shell.BLANK, Shell.LIVE, Shell.BLANK] 0).get Who.player).withKnownPos k v)) :=
  ⟨(c7_burner_phone (mkGame [Shell.LIVE] 0) Who.player [5]).1 (by decide),
   (c7_burner_phone (mkGame [Shell.BLANK, Shell.LIVE, Shell.BLANK] 0) Who.player [5]).2
     (by decide)⟩

-- ---------------------------------------------------------------------------
-- C5
-- ---------------------------------------------------------------------------

theorem catalog_nodup : ItemId.catalog.Nodup := by decide

theorem catalog_length : ItemId.catalog.length = 8 := rfl

@[simp] theorem GState.get_setTurn (g : GState) (t : Who) (v : Who) :
    (GState.mk g.player g.dealer t g.shotgun g.round_no).get v = g.get v := by
  cases v <;> rfl

/-- What `deal_items` guarantees for one actor: fresh empty knowledge, HP
untouched, and an inventory freshly sampled without replacement from the
8-item catalog with size in the configured range. -/
theorem deal_one_props (cfg : Config) (a : Actor) (r : Rng)
    (hlo : cfg.items_per_round.1 ≤ cfg.items_per_round.2)
    (hhi : cfg.items_per_round.2 ≤ 8) :
    (deal_one cfg a r).1.knowledge = {} ∧
    (deal_one cfg a r).1.hp = a.hp ∧
    (deal_one cfg a r).1.skip_next = a.skip_next ∧
    cfg.items_per_round.1 ≤ (deal_one cfg a r).1.inventory.length ∧
    (deal_one cfg a r).1.inventory.length ≤ cfg.items_per_round.2 ∧
    (deal_one cfg a r).1.inventory.Nodup ∧
    (∀ x ∈ (deal_one cfg a r).1.inventory, x ∈ ItemId.catalog) := by
  have hk_ge := randint_ge cfg.items_per_round.1 cfg.items_per_round.2 r
  have hk_le := randint_le cfg.items_per_round.1 cfg.items_per_round.2 r hlo
  have hd1 : (deal_one cfg a r).1 =
      { a with inventory := (sample ItemId.catalog (randint cfg.items_per_round.1 cfg.items_per_round.2 r).1 (randint cfg.items_per_round.1 cfg.items_per_round.2 r).2).1, knowledge := {} } := rfl
  rw [hd1]
  have hfuel : (randint cfg.items_per_round.1 cfg.items_per_round.2 r).1 ≤ ItemId.catalog.length := by
    rw [catalog_length]
    omega
  have hlen : (sample ItemId.catalog (randint cfg.items_per_round.1 cfg.items_per_round.2 r).1 (randint cfg.items_per_round.1 cfg.items_per_round.2 r).2).1.length = (randint cfg.items_per_round.1 cfg.items_per_round.2 r).1 :=
    drawGo_length _ _ _ _ hfuel
  refine ⟨rfl, rfl, rfl, ?_, ?_, ?_, ?_⟩
  · rw [hlen]
    exact hk_ge
  · rw [hlen]
    exact hk_le
  · exact drawGo_nodup _ _ _ _ catalog_nodup
  · exact fun x hx => drawGo_subset _ _ _ _ x hx

/-- The exact state `turn_start` produces on the reload branch. -/
theorem turn_start_reload_eq (cfg : Config) (g : GState) (r : Rng)
    (hskip : (g.get g.turn).skip_next = false)
    (hempty : g.shotgun.remaining = 0) :
    turn_start cfg g r =
      (Prologue.reloaded,
       { (deal_items cfg { g with round_no := g.round_no + 1, shotgun := (Shotgun.load cfg.min_shells cfg.max_shells r).1 } (Shotgun.load cfg.min_shells cfg.max_shells r).2).1 with turn := Who.player },
       (deal_items cfg { g with round_no := g.round_no + 1, shotgun := (Shotgun.load cfg.min_shells cfg.max_shells r).1 } (Shotgun.load cfg.min_shells cfg.max_shells r).2).2) := by
  simp only [turn_start, hskip, hempty, Bool.false_eq_true, if_false, if_pos rfl]
  simp

/-- **C5.** A turn step that begins with the acting actor's `skip_next`
clear and an empty shell sequence performs exactly a reload: round
counter +1, fresh `load`-ed shell sequence (cursor 0, both shell kinds
within bounds), both inventories redrawn without replacement from the
8-item catalog with sizes in the configured range, both knowledge stores
reset, turn forced to the human player, HP untouched and no shot fired. -/
theorem c5_reload (cfg : Config) (g : GState) (r : Rng)
    (hskip : (g.get g.turn).skip_next = false)
    (hempty : g.shotgun.remaining = 0)
    (hmin : 2 ≤ cfg.min_shells) (hmax : cfg.min_shells ≤ cfg.max_shells)
    (hlo : cfg.items_per_round.1 ≤ cfg.items_per_round.2)
    (hhi : cfg.items_per_round.2 ≤ 8) :
    (turn_start cfg g r).1 = Prologue.reloaded ∧
    (turn_start cfg g r).2.1.round_no = g.round_no + 1 ∧
    (turn_start cfg g r).2.1.turn = Who.player ∧
    (turn_start cfg g r).2.1.shotgun = (Shotgun.load cfg.min_shells cfg.max_shells r).1 ∧
    (turn_start cfg g r).2.1.shotgun.index = 0 ∧
    cfg.min_shells ≤ (turn_start cfg g r).2.1.shotgun.shells.length ∧
    (turn_start cfg g r).2.1.shotgun.shells.length ≤ cfg.max_shells ∧
    1 ≤ (turn_start cfg g r).2.1.shotgun.shells.count Shell.LIVE ∧
    (turn_start cfg g r).2.1.shotgun.shells.count Shell.LIVE ≤
      (turn_start cfg g r).2.1.shotgun.shells.length - 1 ∧
    (∀ w, ((turn_start cfg g r).2.1.get w).knowledge = {} ∧
      ((turn_start cfg g r).2.1.get w).hp = (g.get w).hp ∧
      cfg.items_per_round.1 ≤ ((turn_start cfg g r).2.1.get w).inventory.length ∧
      ((turn_start cfg g r).2.1.get w).inventory.length ≤ cfg.items_per_round.2 ∧
      ((turn_start cfg g r).2.1.get w).inventory.Nodup ∧
      ∀ x ∈ ((turn_start cfg g r).2.1.get w).inventory, x ∈ ItemId.catalog) := by
  have hload := load_invariant_props cfg.min_shells cfg.max_shells r hmin hmax
  have hts := turn_start_reload_eq cfg g r hskip hempty
  set G1 : GState := { g with round_no := g.round_no + 1, shotgun := (Shotgun.load cfg.min_shells cfg.max_shells r).1 } with hG1
  set R1 : Rng := (Shotgun.load cfg.min_shells cfg.max_shells r).2 with hR1
  have hdeal : (deal_items cfg G1 R1).1 =
      { G1 with player := (deal_one cfg G1.player R1).1,
                dealer := (deal_one cfg G1.dealer (deal_one cfg G1.player R1).2).1 } := rfl
  have hp_props := deal_one_props cfg G1.player R1 hlo hhi
  have hd_props := deal_one_props cfg G1.dealer (deal_one cfg G1.player R1).2 hlo hhi
  rw [hts]
  simp only [hdeal]
  refine ⟨by trivial, by trivial, by trivial, by trivial, hload.2.2.2.2.1, hload.1,
    hload.2.1, hload.2.2.1, hload.2.2.2.1, ?_⟩
  intro w
  cases w with
  | player => exact ⟨hp_props.1, hp_props.2.1, hp_props.2.2.2.1, hp_props.2.2.2.2.1,
      hp_props.2.2.2.2.2.1, hp_props.2.2.2.2.2.2⟩
  | dealer => exact ⟨hd_props.1, hd_props.2.1, hd_props.2.2.2.1, hd_props.2.2.2.2.1,
      hd_props.2.2.2.2.2.1, hd_props.2.2.2.2.2.2⟩

/-- Witness for C5: with the default config, an exhausted single-shell
magazine and the player to act, the step reloads: round 2, player's turn. -/
theorem c5_reload_witness :
    (turn_start {} (mkGame [Shell.LIVE] 1) [0, 1, 2, 3, 4, 5]).1 = Prologue.reloaded ∧
    (turn_start {} (mkGame [Shell.LIVE] 1) [0, 1, 2, 3, 4, 5]).2.1.round_no = 2 ∧
    (turn_start {} (mkGame [Shell.LIVE] 1) [0, 1, 2, 3, 4, 5]).2.1.turn = Who.player ∧
    (turn_start {} (mkGame [Shell.LIVE] 1) [0, 1, 2, 3, 4, 5]).2.1.shotgun.index = 0 :=
  have h := c5_reload {} (mkGame [Shell.LIVE] 1) [0, 1, 2, 3, 4, 5] rfl rfl
    (by decide) (by decide) (by decide) (by decide)
  ⟨h.1, h.2.1, h.2.2.1, h.2.2.2.2.1⟩

-- ---------------------------------------------------------------------------
-- C1
-- ---------------------------------------------------------------------------

/-- A mid-round state a human player can reach in normal play: one shell
left in the magazine (a blank was already spent), a Beer in hand, the
player to act. -/
def beerTrap : GState :=
  { player := { name := "You", inventory := [ItemId.BEER] },
    dealer := { name := "Dealer", ai := true }, turn := Who.player,
    shotgun := { shells := [Shell.BLANK, Shell.LIVE], index := 1 }, round_no := 1 }

/-- **C1.** Contrary to the claim, `fire()` *is* invoked on an exhausted
shell sequence in normal play: from `beerTrap` (one shell remaining), the
human uses Beer during the item phase — ejecting the last shell — and the
turn still proceeds to shot resolution, whose `fire()` raises the fatal
"empty magazine" `RuntimeError`. The reload check ran only at the start
of the step, so nothing guards this path. -/
theorem c1_beer_empty_fire_crash :
    beerTrap.shotgun.remaining = 1 ∧
    turn_loop_human {} beerTrap false [0] [some ItemId.BEER, none] =
      Except.error "Tried to fire an empty shotgun." :=
  ⟨rfl, rfl⟩

-- ---------------------------------------------------------------------------
-- C2
-- ---------------------------------------------------------------------------

/-- A state in which the human player uses Adrenaline while the AI dealer
holds a Cigarette. -/
def adrTrap : GState :=
  { player := { name := "You", inventory := [ItemId.ADRENALINE] },
    dealer := { name := "Dealer", ai := true, inventory := [ItemId.CIGARETTE] },
    turn := Who.player,
    shotgun := { shells := [Shell.BLANK, Shell.LIVE], index := 0 }, round_no := 1 }

/-- **C2.** Contrary to the claim, a human user's Adrenaline never steals:
`prompt_choose_item(target)` returns `None` immediately because the
target (the Dealer) is AI-controlled, so the use is logged as "cancels
the steal" and the whole game state is unchanged — even though the
target's inventory is non-empty and the human's scripted answer offers
to take the Cigarette. The human chooser is never consulted. -/
theorem c2_adrenaline_human_noop :
    (adrTrap.get Who.dealer).inventory = [ItemId.CIGARETTE] ∧
    (adrTrap.get Who.player).ai = false ∧
    useItem 8 ItemId.ADRENALINE adrTrap Who.player Who.dealer [7] [some ItemId.CIGARETTE] =
      Except.ok (adrTrap, [7], [some ItemId.CIGARETTE]) :=
  ⟨rfl, rfl, rfl⟩

-- ---------------------------------------------------------------------------
-- C10: fine-grained step relation and the current-shell knowledge invariant
-- ---------------------------------------------------------------------------

/-- Where `turn_loop` stands inside one step: at the prologue (skip/reload
checks) or in the item/aim/shot phases. -/
inductive Phase
  | start
  | act
deriving DecidableEq, Repr

/-- Actor `w`'s certainty about the chambered shell is accurate: whenever
`current_known` is set it equals `peekCurrent()`. -/
def ckAccurate (g : GState) (w : Who) : Prop :=
  ∀ s, (g.get w).knowledge.current_known = some s →
    g.shotgun.shells[g.shotgun.index]? = some s

/-- One fine-grained transition of the engine. This over-approximates the
real scheduler: during the act phase any item effect may fire with the
turn holder as user (covering both direct use from `use_item_flow` /
`ai_maybe_use_item` and an Adrenaline-stolen use, whose nested invocation
also runs with the turn holder as user and the opponent as target), and
inventory removal is a separate step; the prologue and shot resolution
follow `turn_loop` directly. Crashing paths (`IndexError` on peeking an
empty magazine, `RuntimeError` on firing one) have no successor. -/
inductive Step : GState × Phase → GState × Phase → Prop
  | skip_turn (g : GState) (h : (g.get g.turn).skip_next = true) :
      Step (g, Phase.start)
        ({ g.set g.turn { g.get g.turn with skip_next := false } with turn := Who.other g.turn },
         Phase.start)
  | reload (cfg : Config) (g : GState) (r : Rng)
      (h1 : (g.get g.turn).skip_next = false) (h2 : g.shotgun.remaining = 0) :
      Step (g, Phase.start) ((turn_start cfg g r).2.1, Phase.start)
  | enter_item_phase (g : GState) (h1 : (g.get g.turn).skip_next = false)
      (h2 : g.shotgun.remaining ≠ 0) :
      Step (g, Phase.start) (g, Phase.act)
  | use_magnifying (g g' : GState) (h : MagnifyingGlass.use g g.turn = Except.ok g') :
      Step (g, Phase.act) (g', Phase.act)
  | use_beer (g : GState) : Step (g, Phase.act) (Beer.use g g.turn, Phase.act)
  | use_handcuffs (g : GState) :
      Step (g, Phase.act) (Handcuffs.use g (Who.other g.turn), Phase.act)
  | use_handsaw (g : GState) : Step (g, Phase.act) (HandSaw.use g g.turn, Phase.act)
  | use_inverter (g : GState) : Step (g, Phase.act) (Inverter.use g g.turn, Phase.act)
  | use_burner (g : GState) (r : Rng) :
      Step (g, Phase.act) ((BurnerPhone.use g g.turn r).1, Phase.act)
  | use_cigarette (g : GState) : Step (g, Phase.act) (Cigarette.use g g.turn, Phase.act)
  | pop_inventory (g : GState) (w : Who) (iid : ItemId) :
      Step (g, Phase.act) (g.set w ((g.get w).pop_item iid), Phase.act)
  | shot (g g1 : GState) (target : Who) (keep : Bool)
      (h : resolve_shot g g.turn target = Except.ok (g1, keep)) :
      Step (g, Phase.act)
        (if keep then g1 else { g1 with turn := Who.other g.turn }, Phase.start)

/-- The inductive invariant: both certainties accurate, the non-acting
actor certain of nothing, and at a step boundary the acting actor certain
of nothing either. -/
def KInv (c : GState × Phase) : Prop :=
  ckAccurate c.1 Who.player ∧ ckAccurate c.1 Who.dealer ∧
  (c.1.get (Who.other c.1.turn)).knowledge.current_known = none ∧
  (c.2 = Phase.start → (c.1.get c.1.turn).knowledge.current_known = none)

theorem GState.get_set (g : GState) (v w : Who) (a : Actor) :
    (g.set v a).get w = if w = v then a else g.get w := by
  cases v <;> cases w <;> simp [GState.get, GState.set]

theorem ck_get_set_preserve (g : GState) (v : Who) (a : Actor)
    (ha : a.knowledge.current_known = (g.get v).knowledge.current_known) (w : Who) :
    ((g.set v a).get w).knowledge.current_known = (g.get w).knowledge.current_known := by
  rw [GState.get_set]
  by_cases hwv : w = v
  · rw [if_pos hwv, hwv, ha]
  · rw [if_neg hwv]

theorem kinv_of_ck_eq (g g' : GState) (p p' : Phase)
    (hck : ∀ w, (g'.get w).knowledge.current_known = (g.get w).knowledge.current_known)
    (hsg : g'.shotgun = g.shotgun) (hturn : g'.turn = g.turn)
    (hp : p' = Phase.start → p = Phase.start)
    (hinv : KInv (g, p)) : KInv (g', p') := by
  obtain ⟨h1, h2, h3, h4⟩ := hinv
  refine ⟨fun s hs => ?_, fun s hs => ?_, ?_, fun hps => ?_⟩
  · rw [hsg]
    exact h1 s (by rw [← hck Who.player]; exact hs)
  · rw [hsg]
    exact h2 s (by rw [← hck Who.dealer]; exact hs)
  · rw [hturn, hck]
    exact h3
  · rw [hturn, hck]
    exact h4 (hp hps)

theorem Actor.pop_item_knowledge (a : Actor) (iid : ItemId) :
    (a.pop_item iid).knowledge = a.knowledge := by
  unfold Actor.pop_item
  split <;> rfl

theorem Actor.heal_knowledge (a : Actor) (n : Int) :
    (a.heal n).knowledge = a.knowledge := rfl

@[simp] theorem Actor.withKnownPos_current_known (a : Actor) (k : Nat) (v : Shell) :
    (a.withKnownPos k v).knowledge.current_known = a.knowledge.current_known := rfl

theorem magnifying_ok_inv (g : GState) (u : Who) (g' : GState)
    (h : MagnifyingGlass.use g u = Except.ok g') :
    ∃ shell, g.shotgun.peek_current = some shell ∧
      g' = g.set u ((g.get u).withCK (some shell)) := by
  unfold MagnifyingGlass.use at h
  cases hp : g.shotgun.peek_current with
  | none =>
    rw [hp] at h
    exact Except.noConfusion h
  | some s =>
    rw [hp] at h
    exact ⟨s, rfl, (Except.ok.inj h).symm⟩

theorem resolve_shot_inv (g : GState) (shooter target : Who) (g1 : GState) (keep : Bool)
    (h : resolve_shot g shooter target = Except.ok (g1, keep)) :
    ∃ shell sg, g.shotgun.fire = Except.ok (shell, sg) ∧
      (g1, keep) = resolve_shot_ok g shooter target shell sg := by
  cases hf : g.shotgun.fire with
  | error e =>
    unfold resolve_shot at h
    rw [hf] at h
    exact Except.noConfusion h
  | ok p =>
    obtain ⟨shell, sg⟩ := p
    have heq := resolve_shot_eq g shooter target shell sg hf
    rw [h] at heq
    exact ⟨shell, sg, rfl, Except.ok.inj heq⟩


/-- After `resolve_shot` both actors' `current_known` are cleared. -/
theorem resolve_shot_ok_ck_none (g : GState) (shooter target : Who) (shell : Shell)
    (sg : Shotgun) (w : Who) :
    ((resolve_shot_ok g shooter target shell sg).1.get w).knowledge.current_known = none := by
  cases shell <;> cases shooter <;> cases target <;> cases w <;> rfl

/-- After Beer both actors' `current_known` are cleared (when a shell was
actually ejected). -/
theorem clearCK_both_ck_none (g : GState) (u w : Who) :
    (((g.clearCK u).clearCK (Who.other u)).get w).knowledge.current_known = none := by
  cases u <;> cases w <;> rfl

theorem beer_ck_none_or_id (g : GState) (u : Who) :
    (∀ w, ((Beer.use g u).get w).knowledge.current_known = none) ∨ Beer.use g u = g := by
  unfold Beer.use
  by_cases hrem : g.shotgun.remaining = 0
  · right
    rw [if_pos hrem]
  · rw [if_neg hrem]
    cases hej : g.shotgun.eject_current with
    | error e => right; rfl
    | ok p =>
      left
      intro w
      obtain ⟨s, sg⟩ := p
      exact clearCK_both_ck_none _ u w

theorem burner_ck (g : GState) (u : Who) (r : Rng) (w : Who) :
    (((BurnerPhone.use g u r).1).get w).knowledge.current_known =
      (g.get w).knowledge.current_known := by
  unfold BurnerPhone.use
  by_cases hrem : g.shotgun.remaining ≤ 1
  · rw [if_pos hrem]
  · rw [if_neg hrem]
    exact ck_get_set_preserve g u ((g.get u).withKnownPos (g.shotgun.index + (randint 1 (g.shotgun.remaining - 1) r).1) (g.shotgun.shells.getD (g.shotgun.index + (randint 1 (g.shotgun.remaining - 1) r).1) Shell.BLANK)) rfl w

theorem burner_shotgun (g : GState) (u : Who) (r : Rng) :
    ((BurnerPhone.use g u r).1).shotgun = g.shotgun := by
  unfold BurnerPhone.use
  by_cases hrem : g.shotgun.remaining ≤ 1
  · rw [if_pos hrem]
  · rw [if_neg hrem]
    exact GState.shotgun_set g u ((g.get u).withKnownPos (g.shotgun.index + (randint 1 (g.shotgun.remaining - 1) r).1) (g.shotgun.shells.getD (g.shotgun.index + (randint 1 (g.shotgun.remaining - 1) r).1) Shell.BLANK))

theorem burner_turn (g : GState) (u : Who) (r : Rng) :
    ((BurnerPhone.use g u r).1).turn = g.turn := by
  unfold BurnerPhone.use
  by_cases hrem : g.shotgun.remaining ≤ 1
  · rw [if_pos hrem]
  · rw [if_neg hrem]
    exact GState.turn_set g u ((g.get u).withKnownPos (g.shotgun.index + (randint 1 (g.shotgun.remaining - 1) r).1) (g.shotgun.shells.getD (g.shotgun.index + (randint 1 (g.shotgun.remaining - 1) r).1) Shell.BLANK))

/-- Every engine step preserves the knowledge invariant. -/
theorem step_preserves_kinv (c c' : GState × Phase) (hstep : Step c c') (hinv : KInv c) :
    KInv c' := by
  obtain ⟨h1, h2, h3, h4⟩ := hinv
  cases hstep with
  | skip_turn g h =>
    have hnone : ∀ w, (g.get w).knowledge.current_known = none := by
      intro w
      by_cases hw : w = g.turn
      · rw [hw]
        exact h4 rfl
      · have hw' : w = Who.other g.turn := (Who.ne_iff_eq_other g.turn w).mp hw
        rw [hw']
        exact h3
    have hck : ∀ w, (({ g.set g.turn { g.get g.turn with skip_next := false } with
        turn := Who.other g.turn } : GState).get w).knowledge.current_known = none := by
      intro w
      have hproj : ({ g.set g.turn { g.get g.turn with skip_next := false } with
          turn := Who.other g.turn } : GState).get w =
          (g.set g.turn { g.get g.turn with skip_next := false }).get w := by
        cases hv : g.turn <;> cases w <;> rfl
      rw [hproj, ck_get_set_preserve g g.turn { g.get g.turn with skip_next := false } rfl w]
      exact hnone w
    exact ⟨fun s hs => absurd (hck Who.player ▸ hs) (by simp),
           fun s hs => absurd (hck Who.dealer ▸ hs) (by simp),
           hck _, fun _ => hck _⟩
  | reload cfg g r hsk he =>
    have hre := turn_start_reload_eq cfg g r hsk he
    have hck : ∀ w, ((turn_start cfg g r).2.1.get w).knowledge.current_known = none := by
      intro w
      rw [hre]
      cases w <;> rfl
    exact ⟨fun s hs => absurd (hck Who.player ▸ hs) (by simp),
           fun s hs => absurd (hck Who.dealer ▸ hs) (by simp),
           hck _, fun _ => hck _⟩
  | enter_item_phase g hsk hne =>
    exact ⟨h1, h2, h3, fun hps => nomatch hps⟩
  | use_magnifying g g' hok =>
    obtain ⟨shell, hpeek, hg'⟩ := magnifying_ok_inv g g.turn g' hok
    subst hg'
    have hpeek' : g.shotgun.shells[g.shotgun.index]? = some shell := hpeek
    have hacc : ∀ w, ckAccurate (g.set g.turn ((g.get g.turn).withCK (some shell))) w := by
      intro w s hs
      rw [GState.get_set] at hs
      simp only [GState.shotgun_set]
      by_cases hw : w = g.turn
      · rw [if_pos hw, Actor.withCK_current_known] at hs
        rw [← Option.some.inj hs]
        exact hpeek'
      · rw [if_neg hw] at hs
        cases w with
        | player => exact h1 s hs
        | dealer => exact h2 s hs
    refine ⟨hacc Who.player, hacc Who.dealer, ?_, fun hps => nomatch hps⟩
    have hturn : (g.set g.turn ((g.get g.turn).withCK (some shell))).turn = g.turn :=
      GState.turn_set g g.turn _
    rw [hturn, GState.get_set, if_neg (Who.other_ne g.turn)]
    exact h3
  | use_beer g =>
    rcases beer_ck_none_or_id g g.turn with hck | hid
    · exact ⟨fun s hs => absurd (hck Who.player ▸ hs) (by simp),
             fun s hs => absurd (hck Who.dealer ▸ hs) (by simp),
             hck _, fun hps => nomatch hps⟩
    · rw [hid]
      exact ⟨h1, h2, h3, fun hps => nomatch hps⟩
  | use_handcuffs g =>
    exact kinv_of_ck_eq g _ Phase.act Phase.act
      (fun w => ck_get_set_preserve g (Who.other g.turn) { g.get (Who.other g.turn) with skip_next := true } rfl w)
      (GState.shotgun_set g (Who.other g.turn) { g.get (Who.other g.turn) with skip_next := true })
      (GState.turn_set g (Who.other g.turn) { g.get (Who.other g.turn) with skip_next := true })
      (fun hp => hp) ⟨h1, h2, h3, h4⟩
  | use_handsaw g =>
    exact kinv_of_ck_eq g _ Phase.act Phase.act
      (fun w => ck_get_set_preserve g g.turn { g.get g.turn with dmg_mult := 2 } rfl w)
      (GState.shotgun_set g g.turn { g.get g.turn with dmg_mult := 2 })
      (GState.turn_set g g.turn { g.get g.turn with dmg_mult := 2 })
      (fun hp => hp) ⟨h1, h2, h3, h4⟩
  | use_inverter g =>
    cases hck0 : (g.get g.turn).knowledge.current_known with
    | none =>
      have hid : Inverter.use g g.turn = { g with shotgun := g.shotgun.invert_current } := by
        unfold Inverter.use
        simp [hck0]
      rw [hid]
      have hcks : ∀ w, ((({ g with shotgun := g.shotgun.invert_current } : GState)).get w).knowledge.current_known = (g.get w).knowledge.current_known := by
        intro w
        rw [GState.get_setShotgun]
      have hnone : ∀ w, (g.get w).knowledge.current_known = none := by
        intro w
        by_cases hw : w = g.turn
        · rw [hw]
          exact hck0
        · have hw' : w = Who.other g.turn := (Who.ne_iff_eq_other g.turn w).mp hw
          rw [hw']
          exact h3
      exact ⟨fun s hs => absurd ((hcks Who.player).trans (hnone Who.player) ▸ hs) (by simp),
             fun s hs => absurd ((hcks Who.dealer).trans (hnone Who.dealer) ▸ hs) (by simp),
             ((hcks _).trans (hnone _)), fun hps => nomatch hps⟩
    | some s =>
      have hacc_t : g.shotgun.shells[g.shotgun.index]? = some s := by
        cases ht : g.turn with
        | player => exact h1 s (by rw [← ht, hck0])
        | dealer => exact h2 s (by rw [← ht, hck0])
      have hlt : g.shotgun.index < g.shotgun.shells.length := by
        rcases List.getElem?_eq_some.mp hacc_t with ⟨hlt, _⟩
        exact hlt
      have hgd : g.shotgun.shells.getD g.shotgun.index Shell.BLANK = s := by
        rw [List.getD_eq_getElem _ _ hlt]
        have := List.getElem?_eq_getElem hlt
        rw [this] at hacc_t
        exact Option.some.inj hacc_t
      have hg' : Inverter.use g g.turn =
          ({ g with shotgun := g.shotgun.invert_current } : GState).set g.turn
            ((({ g with shotgun := g.shotgun.invert_current } : GState).get g.turn).withCK
              (some (Shell.flip s))) := by
        unfold Inverter.use
        simp [hck0]
      have hinvc : g.shotgun.invert_current =
          { g.shotgun with shells := g.shotgun.shells.set g.shotgun.index (Shell.flip (g.shotgun.shells.getD g.shotgun.index Shell.BLANK)) } := by
        unfold Shotgun.invert_current
        rw [if_neg (by omega)]
      have hpeek' : g.shotgun.invert_current.shells[g.shotgun.invert_current.index]? =
          some (Shell.flip s) := by
        rw [hinvc, hgd]
        exact List.getElem?_set_eq_of_lt _ hlt
      have hacc : ∀ w, ckAccurate (({ g with shotgun := g.shotgun.invert_current } : GState).set g.turn ((({ g with shotgun := g.shotgun.invert_current } : GState).get g.turn).withCK (some (Shell.flip s)))) w := by
        intro w s' hs'
        rw [GState.get_set] at hs'
        simp only [GState.shotgun_set]
        by_cases hw : w = g.turn
        · rw [if_pos hw, Actor.withCK_current_known] at hs'
          rw [← Option.some.inj hs']
          exact hpeek'
        · rw [if_neg hw, GState.get_setShotgun] at hs'
          have hw' : w = Who.other g.turn := (Who.ne_iff_eq_other g.turn w).mp hw
          rw [hw', h3] at hs'
          exact Option.noConfusion hs'
      rw [hg']
      refine ⟨hacc Who.player, hacc Who.dealer, ?_, fun hps => nomatch hps⟩
      have hturn' : (({ g with shotgun := g.shotgun.invert_current } : GState).set g.turn ((({ g with shotgun := g.shotgun.invert_current } : GState).get g.turn).withCK (some (Shell.flip s)))).turn = g.turn :=
        (GState.turn_set { g with shotgun := g.shotgun.invert_current } g.turn _).trans rfl
      rw [hturn', GState.get_set, if_neg (Who.other_ne g.turn), GState.get_setShotgun]
      exact h3
  | use_burner g r =>
    exact kinv_of_ck_eq g _ Phase.act Phase.act
      (fun w => burner_ck g g.turn r w)
      (burner_shotgun g g.turn r)
      (burner_turn g g.turn r)
      (fun hp => hp) ⟨h1, h2, h3, h4⟩
  | use_cigarette g =>
    exact kinv_of_ck_eq g _ Phase.act Phase.act
      (fun w => ck_get_set_preserve g g.turn ((g.get g.turn).heal 1) (by rw [Actor.heal_knowledge]) w)
      (GState.shotgun_set g g.turn ((g.get g.turn).heal 1))
      (GState.turn_set g g.turn ((g.get g.turn).heal 1))
      (fun hp => hp) ⟨h1, h2, h3, h4⟩
  | pop_inventory g w iid =>
    exact kinv_of_ck_eq g _ Phase.act Phase.act
      (fun v => ck_get_set_preserve g w ((g.get w).pop_item iid) (by rw [Actor.pop_item_knowledge]) v)
      (GState.shotgun_set g w ((g.get w).pop_item iid))
      (GState.turn_set g w ((g.get w).pop_item iid))
      (fun hp => hp) ⟨h1, h2, h3, h4⟩
  | shot g g1 target keep hres =>
    obtain ⟨shell, sg, hf, heq⟩ := resolve_shot_inv g g.turn target g1 keep hres
    have hg1 : g1 = (resolve_shot_ok g g.turn target shell sg).1 := congrArg Prod.fst heq
    have hck : ∀ w, (g1.get w).knowledge.current_known = none := by
      intro w
      rw [hg1]
      exact resolve_shot_ok_ck_none g g.turn target shell sg w
    have hckf : ∀ w, ((if keep then g1 else { g1 with turn := Who.other g.turn }).get
        w).knowledge.current_known = none := by
      intro w
      cases keep with
      | false =>
        simp only [Bool.false_eq_true, if_false]
        rw [GState.get_setTurn]
        exact hck w
      | true =>
        simp only [if_true]
        exact hck w
    exact ⟨fun s hs => absurd (hckf Who.player ▸ hs) (by simp),
           fun s hs => absurd (hckf Who.dealer ▸ hs) (by simp),
           hckf _, fun _ => hckf _⟩

/-- **C10.** In every game state reachable (through the engine's step
relation) from a start-of-turn state in which both actors' `current_known`
is unknown — as at game start and after every reload — each actor's
`current_known`, whenever set, equals the shell at the cursor
(`peekCurrent()`): shots and Beer's eject clear both certainties, reload
resets both knowledge stores, the Inverter flips the user's certainty in
lockstep with the shell, and the opponent (whose certainty is always
already cleared when someone else holds the turn) never ends up stale. -/
theorem c10_current_known_accurate (c0 c : GState × Phase)
    (h0p : (c0.1.get Who.player).knowledge.current_known = none)
    (h0d : (c0.1.get Who.dealer).knowledge.current_known = none)
    (_h0s : c0.2 = Phase.start)
    (hreach : Relation.ReflTransGen Step c0 c) :
    ∀ w, ckAccurate c.1 w := by
  have h0 : KInv c0 := by
    refine ⟨fun s hs => ?_, fun s hs => ?_, ?_, fun _ => ?_⟩
    · rw [h0p] at hs
      exact Option.noConfusion hs
    · rw [h0d] at hs
      exact Option.noConfusion hs
    · cases hv : c0.1.turn with
      | player => exact h0d
      | dealer => exact h0p
    · cases hv : c0.1.turn with
      | player => exact h0p
      | dealer => exact h0d
  have hc : KInv c := by
    induction hreach with
    | refl => exact h0
    | tail hab hbc ih => exact step_preserves_kinv _ _ hbc ih
  intro w
  cases w with
  | player => exact hc.1
  | dealer => exact hc.2.1

/-- The state after the player opens the turn and uses a Magnifying Glass
on the magazine `[LIVE, BLANK]`. -/
def c10demo : GState :=
  (mkGame [Shell.LIVE, Shell.BLANK] 0).set Who.player
    (((mkGame [Shell.LIVE, Shell.BLANK] 0).get Who.player).withCK (some Shell.LIVE))

/-- Witness for C10: along the concrete trace init → item phase →
Magnifying Glass, the player's certainty (LIVE) matches the chambered
shell. -/
theorem c10_current_known_accurate_witness :
    c10demo.shotgun.shells[c10demo.shotgun.index]? = some Shell.LIVE := by
  have hreach : Relation.ReflTransGen Step (mkGame [Shell.LIVE, Shell.BLANK] 0, Phase.start)
      (c10demo, Phase.act) :=
    Relation.ReflTransGen.tail
      (Relation.ReflTransGen.tail Relation.ReflTransGen.refl
        (Step.enter_item_phase (mkGame [Shell.LIVE, Shell.BLANK] 0) rfl (by decide)))
      (Step.use_magnifying (mkGame [Shell.LIVE, Shell.BLANK] 0) c10demo rfl)
  exact c10_current_known_accurate (mkGame [Shell.LIVE, Shell.BLANK] 0, Phase.start)
    (c10demo, Phase.act) rfl rfl rfl hreach Who.player Shell.LIVE rfl
